import Mathlib

/-!
Verification of the graph-querying-service specification against a shallow
embedding of the repository's Python source.

Strings are modelled as `List Char`.  Regular-expression searches used by the
source (`\bKEYWORD\b`, `\bLIMIT\s+\d+`, character classes) are embedded as
explicit scanners over character lists; the character classes `\w`, `\s`, `\d`,
`[A-Z]`, `[a-z]` are modelled on their ASCII meaning, which is exact for every
string the claims mention.  External libraries (the JWT codec, the SHA-256
digest, the database driver, the language-model client and the cache store)
are modelled as abstract parameters or idealized pure structures; everything
that lives in the repository itself is translated from the source.
-/

namespace GraphQuerying

/-- ASCII reading of the regex word-character class used by the source
(letters, digits, underscore). -/
def isWordChar (c : Char) : Bool := c.isAlphanum || c == '_'

/-- ASCII reading of the regex whitespace class. -/
def isSpaceChar (c : Char) : Bool :=
  c == ' ' || c == '\t' || c == '\n' || c == '\r' || c == '\x0b' || c == '\x0c'

/-- `str.upper()` on one character (ASCII). -/
def upperChar (c : Char) : Char := c.toUpper

/-- Does the second list start with the first one? -/
def startsWithChars : List Char → List Char → Bool
  | [], _ => true
  | _ :: _, [] => false
  | p :: ps, c :: cs => p == c && startsWithChars ps cs

/-- Does `pat` occur as a contiguous substring of `s`?  Models Python's
`pat in s`. -/
def containsSub (pat s : List Char) : Bool :=
  match s with
  | [] => startsWithChars pat []
  | _ :: rest => startsWithChars pat s || containsSub pat rest

/-- One position of the regex `KW\b`: the keyword occurs here and the next
character (if any) is not a word character.  All dangerous keywords end in a
letter, so the trailing boundary is exactly this test. -/
def wordAtStart (kw s : List Char) : Bool :=
  startsWithChars kw s &&
    (match s.drop kw.length with
     | [] => true
     | c :: _ => !isWordChar c)

/-- Scanner for `re.search(r'\bKW\b', s)`: `canStart` records whether the
previous character was not a word character (true at the string start), which
is the `\b` condition in front of a keyword beginning with a letter. -/
def hasWordAux (kw : List Char) : Bool → List Char → Bool
  | _, [] => false
  | canStart, c :: rest =>
    (canStart && wordAtStart kw (c :: rest)) || hasWordAux kw (!isWordChar c) rest

/-- `re.search(r'\bKW\b', s)` is a match somewhere in `s`. -/
def hasWord (kw s : List Char) : Bool := hasWordAux kw true s

/-- After `LIMIT` and one whitespace character: skip further whitespace, then
require a digit.  Together with the leading whitespace test this is
`\s+\d+`. -/
def digitAfterSpaces : List Char → Bool
  | [] => false
  | c :: rest => if isSpaceChar c then digitAfterSpaces rest else c.isDigit

/-- One position of the regex `LIMIT\s+\d+`. -/
def limitMatchAt (s : List Char) : Bool :=
  startsWithChars (['L', 'I', 'M', 'I', 'T']) s &&
    (match s.drop 5 with
     | [] => false
     | c :: rest => isSpaceChar c && digitAfterSpaces rest)

/-- Scanner for `re.search(r'\bLIMIT\s+\d+', s)` on an upper-cased string. -/
def hasLimitAux : Bool → List Char → Bool
  | _, [] => false
  | canStart, c :: rest =>
    (canStart && limitMatchAt (c :: rest)) || hasLimitAux (!isWordChar c) rest

/-- `_has_limit` from `app/graphrag/query_optimizer.py`:
`re.search(r'\bLIMIT\s+\d+', cypher, re.IGNORECASE)`.  Case-insensitive search
is modelled by upper-casing the text first, which does not move any word
boundary. -/
def has_limit (cypher : List Char) : Bool :=
  hasLimitAux true (cypher.map upperChar)

/-- Decimal digit characters. -/
def digitChar : Nat → Char
  | 0 => '0'
  | 1 => '1'
  | 2 => '2'
  | 3 => '3'
  | 4 => '4'
  | 5 => '5'
  | 6 => '6'
  | 7 => '7'
  | 8 => '8'
  | 9 => '9'
  | _ => '0'

/-- Fuelled decimal rendering of a natural number (most significant digit
first), the model of Python's `str(n)` for a non-negative integer. -/
def natCharsAux : Nat → Nat → List Char
  | 0, _ => []
  | fuel + 1, n =>
    if n < 10 then [digitChar n]
    else natCharsAux fuel (n / 10) ++ [digitChar (n % 10)]

/-- Decimal rendering of a natural number. -/
def natChars (n : Nat) : List Char := natCharsAux (n + 1) n

/-- Python's `s.rstrip(';')`: drop every trailing semicolon. -/
def rstripSemis (s : List Char) : List Char :=
  (s.reverse.dropWhile (fun c => c == ';')).reverse

/-- The configuration fields read by `QueryOptimizer`
(`settings.default_query_limit`, default 100, and
`settings.enable_read_only_mode`, default true). -/
structure OptimizerConfig where
  default_query_limit : Nat
  enable_read_only_mode : Bool
deriving DecidableEq

/-- The default configuration values from `app/core/config.py`. -/
def defaultOptimizerConfig : OptimizerConfig := ⟨100, true⟩

/-- `_add_limit` from `app/graphrag/query_optimizer.py`:
the f-string `f"{cypher.rstrip(';')} LIMIT {limit}"`. -/
def add_limit (cypher : List Char) (limit : Nat) : List Char :=
  rstripSemis cypher ++ (" LIMIT ".data) ++ natChars limit

/-- `QueryOptimizer.optimize`: append the default limit when no `LIMIT`
clause is present. -/
def optimize (cfg : OptimizerConfig) (cypher : List Char) : List Char :=
  if has_limit cypher then cypher else add_limit cypher cfg.default_query_limit

/-- `QueryOptimizer.DANGEROUS_KEYWORDS`, in source order. -/
def DANGEROUS_KEYWORDS : List (List Char) :=
  [("CREATE".data), ("DELETE".data), ("REMOVE".data), ("SET".data),
   ("MERGE".data), ("DROP".data), ("ALTER".data), ("DETACH DELETE".data)]

/-- The loop body of `is_read_only`: the first keyword of the list whose
word-boundary search succeeds on the upper-cased text. -/
def findDangerous : List (List Char) → List Char → Option (List Char)
  | [], _ => none
  | kw :: kws, up => if hasWord kw up then some kw else findDangerous kws up

/-- The failure message `f"Opération non autorisée: {keyword}"`. -/
def forbidMsg (kw : List Char) : List Char :=
  ("Opération non autorisée: ".data) ++ kw

/-- `QueryOptimizer.is_read_only` from `app/graphrag/query_optimizer.py`. -/
def is_read_only (cfg : OptimizerConfig) (cypher : List Char) :
    Bool × List Char :=
  if !cfg.enable_read_only_mode then (true, [])
  else
    match findDangerous DANGEROUS_KEYWORDS (cypher.map upperChar) with
    | some kw => (false, forbidMsg kw)
    | none => (true, [])

/-! ### Password validation (`app/core/security.py`, `PasswordValidator`) -/

/-- The password-policy fields of `Settings` with their defaults. -/
structure PasswordPolicy where
  password_min_length : Nat
  password_require_uppercase : Bool
  password_require_lowercase : Bool
  password_require_digit : Bool
  password_require_special : Bool
deriving DecidableEq

/-- Defaults from `app/core/config.py`: length 8, every class required. -/
def defaultPasswordPolicy : PasswordPolicy := ⟨8, true, true, true, true⟩

/-- The character class of the regex `[!@#$%^&*(),.?":{}|<>]`
(twenty characters, the colon included). -/
def SPECIAL_CHARS : List Char :=
  ['!', '@', '#', '$', '%', '^', '&', '*', '(', ')', ',', '.', '?', '\"',
   ':', '{', '}', '|', '<', '>']

/-- `f"Le mot de passe doit contenir au moins {n} caractères"`. -/
def msgMinLength (n : Nat) : List Char :=
  ("Le mot de passe doit contenir au moins ".data) ++ natChars n ++
    (" caractères".data)

/-- Rule message: missing uppercase letter. -/
def msgUpper : List Char :=
  "Le mot de passe doit contenir au moins une majuscule".data

/-- Rule message: missing lowercase letter. -/
def msgLower : List Char :=
  "Le mot de passe doit contenir au moins une minuscule".data

/-- Rule message: missing digit. -/
def msgDigit : List Char :=
  "Le mot de passe doit contenir au moins un chiffre".data

/-- Rule message: missing special character. -/
def msgSpecial : List Char :=
  "Le mot de passe doit contenir au moins un caractère spécial".data

/-- Rule 1 fails: `len(password) < settings.password_min_length`. -/
def lengthViolated (p : PasswordPolicy) (password : List Char) : Bool :=
  password.length < p.password_min_length

/-- Rule 2 fails: uppercase required and `re.search(r'[A-Z]', ·)` finds
nothing. -/
def upperViolated (p : PasswordPolicy) (password : List Char) : Bool :=
  p.password_require_uppercase && !(password.any Char.isUpper)

/-- Rule 3 fails: lowercase required and `re.search(r'[a-z]', ·)` finds
nothing. -/
def lowerViolated (p : PasswordPolicy) (password : List Char) : Bool :=
  p.password_require_lowercase && !(password.any Char.isLower)

/-- Rule 4 fails: digit required and `re.search(r'\d', ·)` finds nothing. -/
def digitViolated (p : PasswordPolicy) (password : List Char) : Bool :=
  p.password_require_digit && !(password.any Char.isDigit)

/-- Rule 5 fails: special character required and the character-class search
finds nothing. -/
def specialViolated (p : PasswordPolicy) (password : List Char) : Bool :=
  p.password_require_special &&
    !(password.any (fun c => SPECIAL_CHARS.contains c))

/-- `PasswordValidator.validate`, accumulating the error messages in source
order (length, uppercase, lowercase, digit, special) and reporting validity
as emptiness of the list. -/
def validate (p : PasswordPolicy) (password : List Char) :
    Bool × List (List Char) :=
  let errors :=
    (if lengthViolated p password
     then [msgMinLength p.password_min_length] else []) ++
    (if upperViolated p password then [msgUpper] else []) ++
    (if lowerViolated p password then [msgLower] else []) ++
    (if digitViolated p password then [msgDigit] else []) ++
    (if specialViolated p password then [msgSpecial] else [])
  (errors == [], errors)

/-- The five policy rules of `PasswordValidator.validate` as a table of
(violated?, message) pairs, in source order. -/
def ruleTable (p : PasswordPolicy) (password : List Char) :
    List (Bool × List Char) :=
  [(lengthViolated p password, msgMinLength p.password_min_length),
   (upperViolated p password, msgUpper),
   (lowerViolated p password, msgLower),
   (digitViolated p password, msgDigit),
   (specialViolated p password, msgSpecial)]

/-- The complete list of violated-rule messages, read off the rule table. -/
def violatedRules (p : PasswordPolicy) (password : List Char) :
    List (List Char) :=
  ((ruleTable p password).filter (fun r => r.1)).map (fun r => r.2)

/-! ### Health aggregation (`app/api/v1/endpoints/health.py`) -/

/-- `ServiceStatus` from `app/models/enums.py`. -/
inductive ServiceStatus
  | healthy
  | degraded
  | unavailable
  | starting
  | stopping
deriving DecidableEq

/-- The fields of `ComponentHealth` the handler fills in (latency is wall
clock and is not modelled). -/
structure ComponentHealth where
  success : Bool
  status : ServiceStatus
  message : List Char
deriving DecidableEq

/-- The health payload assembled by the handler. -/
structure HealthReport where
  status : ServiceStatus
  neo4j : ComponentHealth
  llm : ComponentHealth
  cache : ComponentHealth
deriving DecidableEq

/-- `health_check` from `app/api/v1/endpoints/health.py`, as a function of
the three boolean probe results and the cache-enabled flag. -/
def health_check (neo4j_healthy llm_healthy cache_healthy cache_enabled :
    Bool) : HealthReport :=
  let neo4jComp : ComponentHealth :=
    ⟨true,
     if neo4j_healthy then .healthy else .unavailable,
     if neo4j_healthy then ("Connecté".data) else ("Déconnecté".data)⟩
  let llmComp : ComponentHealth :=
    ⟨true,
     if llm_healthy then .healthy else .unavailable,
     if llm_healthy then ("Disponible".data) else ("Indisponible".data)⟩
  let cacheComp : ComponentHealth :=
    ⟨true,
     if cache_healthy then .healthy else .degraded,
     if cache_enabled then ("Activé".data) else ("Désactivé".data)⟩
  let globalStatus : ServiceStatus :=
    if neo4j_healthy && llm_healthy then .healthy
    else if neo4j_healthy || llm_healthy then .degraded
    else .unavailable
  ⟨globalStatus, neo4jComp, llmComp, cacheComp⟩

/-! ### Filename sanitizer (`app/utils/sanitizers.py`, `PathSanitizer`) -/

/-- Python's `s.split(sep)[-1]`: the text after the last separator (the whole
string when the separator is absent). -/
def lastSegment (sep : Char) (s : List Char) : List Char :=
  s.foldl (fun acc c => if c == sep then [] else acc ++ [c]) []

/-- `PathSanitizer.FORBIDDEN_CHARS`, in source order.  Each entry is tested
with Python's substring containment. -/
def FORBIDDEN_CHARS : List (List Char) :=
  [("..".data), ("~".data), ("\\".data), ("|".data), (">".data), ("<".data),
   ("?".data), ("*".data)]

/-- `re.sub(r'[^\w.-]', '_', ·)` on one character. -/
def underscoreNonWord (c : Char) : Char :=
  if isWordChar c || c == '.' || c == '-' then c else '_'

/-- Python's `s.rsplit('.', 1)` for a string known to contain a dot:
(text before the last dot, text after it). -/
def rsplitDot (s : List Char) : List Char × List Char :=
  let rev := s.reverse
  (((rev.dropWhile (fun c => !(c == '.'))).drop 1).reverse,
   (rev.takeWhile (fun c => !(c == '.'))).reverse)

/-- `PathSanitizer.sanitize_filename`; raising `ValueError` is modelled by
`Except.error` carrying the message. -/
def sanitize_filename (filename : List Char) :
    Except (List Char) (List Char) :=
  let base := lastSegment '\\' (lastSegment '/' filename)
  match FORBIDDEN_CHARS.find? (fun f => containsSub f base) with
  | some f => .error (("Caractère interdit dans le nom: ".data) ++ f)
  | none =>
    let cleaned := base.map underscoreNonWord
    if 255 < cleaned.length then
      if cleaned.contains '.' then
        let parts := rsplitDot cleaned
        .ok (parts.1.take 250 ++
          (if parts.2 == [] then [] else '.' :: parts.2))
      else .ok (cleaned.take 250)
    else .ok cleaned

/-! ### GraphRAG engine (`app/graphrag/engine.py`)

The engine's collaborators (database service, Cypher generator, response
formatter, cache store) are external effects from the engine's point of view;
they are modelled as pure oracle functions in an environment record, and each
call the engine makes is recorded in an effect trace. -/

/-- One observable call made by `process_natural_query` / `validate_query`. -/
inductive Effect
  | cacheLookup
  | schemaFetch
  | generation
  | optimization
  | readOnlyCheck
  | validation
  | execution
  | formatting
  | cacheStore
deriving DecidableEq

/-- The value stored in / returned from the cache for a natural-language
query: the dictionary with keys `cypher`, `results`, `execution_time`,
`answer`. -/
structure CachedEntry where
  cypher : List Char
  results : List (List Char)
  execution_time : Nat
  answer : List Char
deriving DecidableEq

/-- The engine's collaborators: cache, database service, generator and
formatter, plus the optimizer configuration it reads. -/
structure EngineEnv where
  cacheEnabled : Bool
  cacheGet : List Char → Option (List Char) → Option CachedEntry
  get_schema : List Char
  generate : List Char → List Char → Option (List Char) → List Char
  validate_cypher : List Char → Bool × Option (List Char)
  execute_cypher : List Char → List (List Char) × Nat
  format_natural : List Char → List (List Char) → List Char
  cfg : OptimizerConfig

/-- Rendering of the optional validation error inside
`f"Le LLM a généré une requête invalide: {validation_error}"`
(Python prints `None` for an absent message). -/
def renderOptMsg : Option (List Char) → List Char
  | some m => m
  | none => "None".data

/-- The engine result tuple `(cypher, results, execution_time_ms, answer)`. -/
abbrev EngineResult := List Char × List (List Char) × Nat × List Char

/-- The cache-miss tail of `process_natural_query`: schema fetch, generation,
optimization, read-only check, validation, execution, response formatting and
the conditional cache write, in source order.  `wallTime` stands for the
wall-clock duration the source computes from `time.time()`. -/
def processMiss (env : EngineEnv) (wallTime : Nat) (question : List Char)
    (context : Option (List Char)) (use_cache : Bool) (tr : List Effect) :
    Except (List Char) EngineResult × List Effect :=
  let schema := env.get_schema
  let cypher0 := env.generate question schema context
  let cypher := optimize env.cfg cypher0
  let tr := tr ++ [.schemaFetch, .generation, .optimization, .readOnlyCheck]
  let ro := is_read_only env.cfg cypher
  if !ro.1 then (.error ro.2, tr)
  else
    let v := env.validate_cypher cypher
    let tr := tr ++ [.validation]
    if !v.1 then
      (.error (("Le LLM a généré une requête invalide: ".data) ++
        renderOptMsg v.2), tr)
    else
      let exec := env.execute_cypher cypher
      let answer := env.format_natural question exec.1
      let tr := tr ++ [.execution, .formatting]
      if use_cache && env.cacheEnabled then
        (.ok (cypher, exec.1, wallTime, answer), tr ++ [.cacheStore])
      else
        (.ok (cypher, exec.1, wallTime, answer), tr)

/-- `GraphRAGEngine.process_natural_query`. -/
def process_natural_query (env : EngineEnv) (wallTime : Nat)
    (question : List Char) (context : Option (List Char)) (use_cache : Bool) :
    Except (List Char) EngineResult × List Effect :=
  if use_cache && env.cacheEnabled then
    match env.cacheGet question context with
    | some c =>
      (.ok (c.cypher, c.results, c.execution_time, c.answer), [.cacheLookup])
    | none => processMiss env wallTime question context use_cache [.cacheLookup]
  else processMiss env wallTime question context use_cache []

/-- The warning `f"Pas de LIMIT spécifié. Un LIMIT de {default_limit} sera
automatiquement ajouté."`. -/
def limitWarning (defaultLimit : Nat) : List Char :=
  ("Pas de LIMIT spécifié. Un LIMIT de ".data) ++ natChars defaultLimit ++
    (" sera automatiquement ajouté.".data)

/-- `GraphRAGEngine.validate_query`, returning
`(is_valid, is_read_only, error_message, warnings)`. -/
def validate_query (env : EngineEnv) (cypher : List Char)
    (check_read_only : Bool) :
    Bool × Bool × Option (List Char) × List (List Char) :=
  let v := env.validate_cypher cypher
  if !v.1 then (false, false, v.2, [])
  else
    let roPair :=
      if check_read_only then
        let r := is_read_only env.cfg cypher
        if r.1 then (true, v.2) else (false, some r.2)
      else (true, v.2)
    let warnings :=
      if has_limit cypher then []
      else [limitWarning env.cfg.default_query_limit]
    (true, roPair.1, roPair.2, warnings)

/-! ### JWT tokens (`app/core/security.py`, `TokenManager`)

The `python-jose` codec is external; it is modelled as an idealized pure
codec: an encoded token carries its payload and the key and algorithm it was
signed with.  `jwt.decode` with default options first verifies the
signature, then validates the claims: its `_validate_iat` runs
`int(claims["iat"])` and raises `JWTClaimsError` when that fails (before the
expiry check, which raises `ExpiredSignatureError`).  The repository's token
factories store `datetime.now(timezone.utc).isoformat() + "Z"` in `iat` — a
non-numeric string — so this claims check matters and is part of the
model. -/

/-- A decoded JWT payload: the caller's claims plus the `exp`, `iat` and
`type` fields added by the token factories. -/
structure JwtPayload where
  claims : List (List Char × List Char)
  exp : Nat
  iat : List Char
  typ : List Char
deriving DecidableEq

/-- An encoded token, as the idealized codec sees it. -/
structure JwtToken where
  payload : JwtPayload
  key : List Char
  alg : List Char
deriving DecidableEq

/-- The outcomes of `jwt.decode` distinguished by `verify_token`. -/
inductive DecodeResult
  | ok (p : JwtPayload)
  | expiredSignature
  | claimsError
  | jwtError (msg : List Char)
deriving DecidableEq

/-- Does Python's `int(s)` succeed on the string `s`?  An optional sign
followed by at least one digit (the model alphabet has no leading
whitespace or underscores). -/
def pyIntParses (s : List Char) : Bool :=
  match s with
  | [] => false
  | c :: rest =>
    if c == '+' || c == '-' then !rest.isEmpty && rest.all Char.isDigit
    else (c :: rest).all Char.isDigit

/-- Idealized `jwt.decode(token, key, algorithms)` at clock time `now` with
default options: signature check, then the `iat` claims-format validation
(`int(claims["iat"])`, a `JWTClaimsError` on failure), then expiry (expired
when `exp` lies strictly in the past). -/
def jwt_decode (now : Nat) (tok : JwtToken) (key : List Char)
    (algs : List (List Char)) : DecodeResult :=
  if !(tok.key == key && algs.contains tok.alg) then
    .jwtError ("Signature verification failed.".data)
  else if !(pyIntParses tok.payload.iat) then .claimsError
  else if tok.payload.exp < now then .expiredSignature
  else .ok tok.payload

/-- The security-related configuration fields read by `TokenManager`. -/
structure SecuritySettings where
  secret_key : List Char
  algorithm : List Char
  access_token_expire_minutes : Nat
  refresh_token_expire_days : Nat
deriving DecidableEq

/-- The `iat` string `datetime.now(timezone.utc).isoformat() + "Z"`,
modelled as a rendering of the clock value followed by the literal `Z` the
source appends — like the real value, it is not a numeric string. -/
def iatString (now : Nat) : List Char := natChars now ++ ['Z']

/-- `TokenManager.create_access_token`: the caller's data plus `exp`
(now + delta, default `access_token_expire_minutes` minutes), the
string-valued `iat`, and `type = "access"`, signed with the configured key
and algorithm. -/
def create_access_token (st : SecuritySettings) (now : Nat)
    (data : List (List Char × List Char)) (expires_delta : Option Nat) :
    JwtToken :=
  let exp := now + (match expires_delta with
    | some d => d
    | none => st.access_token_expire_minutes * 60)
  ⟨⟨data, exp, iatString now, "access".data⟩, st.secret_key, st.algorithm⟩

/-- `TokenManager.create_refresh_token`: same shape with
`type = "refresh"` and a default validity in days. -/
def create_refresh_token (st : SecuritySettings) (now : Nat)
    (data : List (List Char × List Char)) (expires_delta : Option Nat) :
    JwtToken :=
  let exp := now + (match expires_delta with
    | some d => d
    | none => st.refresh_token_expire_days * 86400)
  ⟨⟨data, exp, iatString now, "refresh".data⟩, st.secret_key, st.algorithm⟩

/-- The result of `TokenManager.verify_token`: the decoded payload, or an
`UnauthorizedError` carrying its message. -/
inductive VerifyResult
  | ok (p : JwtPayload)
  | unauthorized (msg : List Char)
deriving DecidableEq

/-- `TokenManager.verify_token`: decode with the configured key and
algorithm, reject a payload whose `type` differs from the expected one, and
translate every decode failure into an `UnauthorizedError`. -/
def verify_token (st : SecuritySettings) (now : Nat) (token : JwtToken)
    (token_type : List Char) : VerifyResult :=
  match jwt_decode now token st.secret_key [st.algorithm] with
  | .ok p =>
    if !(p.typ == token_type) then
      .unauthorized (("Type de token invalide: attendu ".data) ++ token_type)
    else .ok p
  | .expiredSignature => .unauthorized ("Token expiré".data)
  | .claimsError => .unauthorized ("Claims du token invalides".data)
  | .jwtError m => .unauthorized (("Token invalide: ".data) ++ m)

/-! ### Cache keys (`app/services/cache_service.py`, `CacheService`)

`_generate_key` feeds `f"{query}:{json.dumps(params or {}, sort_keys=True)}"`
through the external SHA-256 digest and prefixes the hex result with
`"query:"`.  The parameter dictionaries the service receives map string keys
to strings or `None`; `json.dumps` with `sort_keys=True` renders them in
ascending key order with `", "` and `": "` separators, escaping backslashes
and double quotes in strings.  The digest is external code and is modelled as
an abstract function parameter `hashHex`. -/

/-- The JSON values appearing in the service's parameter dictionaries. -/
inductive JVal
  | null
  | str (s : List Char)
deriving DecidableEq

/-- JSON escaping of one character (`"` and `\` get a backslash, the
remaining characters of the modelled alphabet are rendered as themselves). -/
def escapeChar (c : Char) : List Char :=
  if c == '\"' || c == '\\' then ['\\', c] else [c]

/-- JSON escaping of a string body. -/
def escapeStr : List Char → List Char
  | [] => []
  | c :: rest => escapeChar c ++ escapeStr rest

/-- A JSON string literal. -/
def renderStr (s : List Char) : List Char :=
  '\"' :: escapeStr s ++ ['\"']

/-- Rendering of one JSON value. -/
def renderJVal : JVal → List Char
  | .null => "null".data
  | .str s => renderStr s

/-- One `"key": value` member. -/
def renderPair (p : List Char × JVal) : List Char :=
  renderStr p.1 ++ [':', ' '] ++ renderJVal p.2

/-- The members of an object, joined with `", "`. -/
def renderPairs : List (List Char × JVal) → List Char
  | [] => []
  | [p] => renderPair p
  | p :: q :: rest => renderPair p ++ [',', ' '] ++ renderPairs (q :: rest)

/-- Lexicographic (code-point) order on strings, Python's comparison used by
`sort_keys=True`. -/
def lexLe : List Char → List Char → Bool
  | [], _ => true
  | _ :: _, [] => false
  | a :: as, b :: bs => if a < b then true else if b < a then false else lexLe as bs

/-- Strict lexicographic order on strings. -/
def lexLt (a b : List Char) : Bool := lexLe a b && !(a == b)

/-- Insertion into a key-sorted pair list. -/
def insertByKey (p : List Char × JVal) :
    List (List Char × JVal) → List (List Char × JVal)
  | [] => [p]
  | q :: rest => if lexLe p.1 q.1 then p :: q :: rest else q :: insertByKey p rest

/-- Sorting the members of an object by key. -/
def sortByKey : List (List Char × JVal) → List (List Char × JVal)
  | [] => []
  | p :: rest => insertByKey p (sortByKey rest)

/-- `json.dumps(params, sort_keys=True)` on the modelled dictionaries. -/
def jsonDumpsSorted (ps : List (List Char × JVal)) : List Char :=
  '{' :: renderPairs (sortByKey ps) ++ ['}']

/-- The digest input `f"{query}:{json.dumps(params, sort_keys=True)}"`. -/
def serializeData (query : List Char) (ps : List (List Char × JVal)) :
    List Char :=
  query ++ ':' :: jsonDumpsSorted ps

/-- `CacheService._generate_key`, with the SHA-256 hex digest abstracted as
`hashHex`. -/
def generate_key (hashHex : List Char → List Char) (query : List Char)
    (ps : List (List Char × JVal)) : List Char :=
  ("query:".data) ++ hashHex (serializeData query ps)

/-- A parameter dictionary has pairwise distinct keys. -/
def KeysNodup (ps : List (List Char × JVal)) : Prop :=
  (ps.map Prod.fst).Nodup

/-- Update the value stored at key `k` (the first occurrence). -/
def setValue (k : List Char) (v : JVal) :
    List (List Char × JVal) → List (List Char × JVal)
  | [] => []
  | p :: rest => if p.1 == k then (k, v) :: rest else p :: setValue k v rest

/-- Inverse of `escapeStr` up to the closing quote: reads characters until an
unescaped `"`, returning the decoded body and the rest of the input. -/
def unescapeStrAux : List Char → Option (List Char × List Char)
  | [] => none
  | c :: rest =>
    if c == '\\' then
      match rest with
      | [] => none
      | d :: rest2 =>
        match unescapeStrAux rest2 with
        | some (s, r) => some (d :: s, r)
        | none => none
    else if c == '\"' then some ([], rest)
    else
      match unescapeStrAux rest with
      | some (s, r) => some (c :: s, r)
      | none => none

/-- Parse one JSON value of the modelled fragment. -/
def parseJVal (s : List Char) : Option (JVal × List Char) :=
  if startsWithChars ("null".data) s then some (.null, s.drop 4)
  else
    match s with
    | [] => none
    | c :: rest =>
      if c == '\"' then
        match unescapeStrAux rest with
        | some (body, r) => some (.str body, r)
        | none => none
      else none

/-- Parse one `"key": value` member. -/
def parsePair (s : List Char) : Option ((List Char × JVal) × List Char) :=
  match s with
  | [] => none
  | c :: rest =>
    if c == '\"' then
      match unescapeStrAux rest with
      | some (k, r) =>
        match r with
        | c1 :: c2 :: r2 =>
          if c1 == ':' && c2 == ' ' then
            match parseJVal r2 with
            | some (v, r3) => some ((k, v), r3)
            | none => none
          else none
        | _ => none
      | none => none
    else none

/-- Parse a nonempty `", "`-separated member list (fuelled). -/
def parsePairsAux : Nat → List Char →
    Option (List (List Char × JVal) × List Char)
  | 0, _ => none
  | fuel + 1, s =>
    match parsePair s with
    | some (p, r) =>
      match r with
      | c1 :: c2 :: r2 =>
        if c1 == ',' && c2 == ' ' then
          match parsePairsAux fuel r2 with
          | some (ps, r3) => some (p :: ps, r3)
          | none => none
        else some ([p], r)
      | _ => some ([p], r)
    | none => none

/-- Parse a rendered object back into its member list. -/
def jsonParse (s : List Char) : Option (List (List Char × JVal)) :=
  match s with
  | [] => none
  | c :: rest =>
    if c == '{' then
      if rest == ['\x7d'] then some []
      else
        match parsePairsAux rest.length rest with
        | some (ps, r) => if r == ['\x7d'] then some ps else none
        | none => none
    else none

/-! ### Concrete sample environments used to instantiate the engine
theorems on closed inputs. -/

/-- A sample cached entry. -/
def sampleEntry : CachedEntry :=
  ⟨("MATCH (p:Person) RETURN count(p) LIMIT 100".data),
   [("row1".data)], 42, ("There are three people.".data)⟩

/-- An engine environment whose cache is enabled and holds `sampleEntry`
for every lookup. -/
def cacheHitEnv : EngineEnv where
  cacheEnabled := true
  cacheGet := fun _ _ => some sampleEntry
  get_schema := "schema".data
  generate := fun _ _ _ => "MATCH (n) RETURN n".data
  validate_cypher := fun _ => (true, none)
  execute_cypher := fun _ => ([], 0)
  format_natural := fun _ _ => "answer".data
  cfg := defaultOptimizerConfig

/-- An engine environment whose syntax validation always fails. -/
def invalidSyntaxEnv : EngineEnv where
  cacheEnabled := false
  cacheGet := fun _ _ => none
  get_schema := "schema".data
  generate := fun _ _ _ => "MATCH (n) RETURN n".data
  validate_cypher := fun _ => (false, some ("Invalid syntax".data))
  execute_cypher := fun _ => ([], 0)
  format_natural := fun _ _ => "answer".data
  cfg := defaultOptimizerConfig

/-- Sample security settings for the token witnesses. -/
def sampleSecuritySettings : SecuritySettings :=
  ⟨("k3y".data), ("HS256".data), 30, 7⟩

/-- A well-formed token with a numeric `iat`, signed with the sample key —
what the factories would have to produce for verification to succeed. -/
def sampleNumericToken : JwtToken :=
  ⟨⟨[(("sub".data), ("x".data))], 10, ("1700000000".data), ("access".data)⟩,
   sampleSecuritySettings.secret_key, sampleSecuritySettings.algorithm⟩

end GraphQuerying

namespace GraphQuerying

/-! ## Helper lemmas -/

/-- The `is_read_only` keyword loop returns the first keyword, in list
order, whose word-boundary search succeeds. -/
theorem findDangerous_eq_filter_head (kws : List (List Char))
    (up : List Char) :
    findDangerous kws up =
      (kws.filter (fun k => hasWord k up)).head? := by
  induction kws with
  | nil => rfl
  | cons kw rest ih =>
    by_cases h : hasWord kw up
    · simp [findDangerous, h, List.filter_cons]
    · simp [findDangerous, h, List.filter_cons, ih]

/-- `validate` returns exactly the list of violated rules of the policy
table, and reports validity as emptiness of that list. -/
theorem validate_eq_violatedRules (p : PasswordPolicy) (pw : List Char) :
    validate p pw = ((violatedRules p pw == []), violatedRules p pw) := by
  simp only [validate, violatedRules, ruleTable, List.filter_cons,
    List.filter_nil]
  cases h1 : lengthViolated p pw <;>
    cases h2 : upperViolated p pw <;>
    cases h3 : lowerViolated p pw <;>
    cases h4 : digitViolated p pw <;>
    cases h5 : specialViolated p pw <;>
    simp [h1, h2, h3, h4, h5]

/-! ## Claim theorems -/

/-- Claim C6: the overall health status is healthy when both the database
and language-model probes succeed, degraded when exactly one succeeds,
unavailable when neither succeeds, and the cache probe and cache-enabled
flag never change the overall status. -/
theorem c6_health_status :
    ∀ n l ch ce ch2 ce2 : Bool,
      (health_check true true ch ce).status = ServiceStatus.healthy ∧
      (health_check true false ch ce).status = ServiceStatus.degraded ∧
      (health_check false true ch ce).status = ServiceStatus.degraded ∧
      (health_check false false ch ce).status = ServiceStatus.unavailable ∧
      (health_check n l ch ce).status = (health_check n l ch2 ce2).status := by
  decide

/-- Claim C7: for every policy and password, `validate` returns the complete
list of violated rules (length, uppercase, lowercase, digit, special, in that
order), is valid exactly when that list is empty, and under the default
policy `"abc"` yields `(false, 4 messages)` while `"Abcdef1!"` yields
`(true, [])`. -/
theorem c7_password_validate :
    (∀ p pw, validate p pw = ((violatedRules p pw == []), violatedRules p pw)) ∧
    (∀ p pw, ((validate p pw).1 = true ↔ (validate p pw).2 = [])) ∧
    validate defaultPasswordPolicy ("abc".data) =
      (false, [msgMinLength 8, msgUpper, msgDigit, msgSpecial]) ∧
    (validate defaultPasswordPolicy ("abc".data)).2.length = 4 ∧
    validate defaultPasswordPolicy ("Abcdef1!".data) = (true, []) := by
  refine ⟨validate_eq_violatedRules, ?_, by decide, by decide, by decide⟩
  intro p pw
  rw [validate_eq_violatedRules]
  simp

/-- Claim C2: `optimize` appends the default `LIMIT` (after stripping
trailing semicolons) exactly when no `LIMIT <digits>` clause is present, and
leaves queries that already carry one unchanged; with the default limit 100
the two spec examples hold. -/
theorem c2_optimize :
    (∀ cfg q, has_limit q = false →
      optimize cfg q =
        rstripSemis q ++ (" LIMIT ".data) ++ natChars cfg.default_query_limit) ∧
    (∀ cfg q, has_limit q = true → optimize cfg q = q) ∧
    optimize defaultOptimizerConfig ("MATCH (n) RETURN n".data) =
      ("MATCH (n) RETURN n LIMIT 100".data) ∧
    optimize defaultOptimizerConfig ("MATCH (n) RETURN n LIMIT 5".data) =
      ("MATCH (n) RETURN n LIMIT 5".data) := by
  refine ⟨?_, ?_, by decide, by decide⟩
  · intro cfg q h
    simp [optimize, h, add_limit]
  · intro cfg q h
    simp [optimize, h]

/-- Witness for C2 at the spec's two example queries. -/
theorem c2_optimize_witness :
    has_limit ("MATCH (n) RETURN n".data) = false ∧
    optimize defaultOptimizerConfig ("MATCH (n) RETURN n".data) =
      rstripSemis ("MATCH (n) RETURN n".data) ++ (" LIMIT ".data) ++
        natChars 100 ∧
    has_limit ("MATCH (n) RETURN n LIMIT 5".data) = true ∧
    optimize defaultOptimizerConfig ("MATCH (n) RETURN n LIMIT 5".data) =
      ("MATCH (n) RETURN n LIMIT 5".data) :=
  ⟨by decide,
   c2_optimize.1 defaultOptimizerConfig ("MATCH (n) RETURN n".data) (by decide),
   by decide,
   c2_optimize.2.1 defaultOptimizerConfig ("MATCH (n) RETURN n LIMIT 5".data)
     (by decide)⟩

/-- Claim C1 counterexample: on `"MATCH (n) DETACH DELETE n"` the failure
message names `DELETE` (the earlier keyword in the list, which matches
first), and the text `DETACH DELETE` does not occur in the message, contrary
to the claimed example. -/
theorem c1_counterexample :
    is_read_only defaultOptimizerConfig ("MATCH (n) DETACH DELETE n".data) =
      (false, forbidMsg ("DELETE".data)) ∧
    containsSub ("DETACH DELETE".data)
      (is_read_only defaultOptimizerConfig
        ("MATCH (n) DETACH DELETE n".data)).2 = false := by
  constructor
  · decide
  · decide

/-- Claim C1 as amended: with read-only mode disabled every query reports
`(true, "")`; with it enabled, any query containing a dangerous keyword as a
case-insensitive whole word is rejected, and the message names the first
matching keyword in the order of `DANGEROUS_KEYWORDS` — so the
`DETACH DELETE` example reports `DELETE`, which precedes `DETACH DELETE` in
the list and matches whenever it does. -/
theorem c1_read_only :
    (∀ cfg q, cfg.enable_read_only_mode = false →
      is_read_only cfg q = (true, [])) ∧
    (∀ cfg q kw, cfg.enable_read_only_mode = true →
      kw ∈ DANGEROUS_KEYWORDS → hasWord kw (q.map upperChar) = true →
      (is_read_only cfg q).1 = false) ∧
    (∀ cfg q kw, cfg.enable_read_only_mode = true →
      (DANGEROUS_KEYWORDS.filter
        (fun k => hasWord k (q.map upperChar))).head? = some kw →
      is_read_only cfg q = (false, forbidMsg kw)) ∧
    is_read_only defaultOptimizerConfig ("MATCH (n) RETURN n".data) =
      (true, []) ∧
    is_read_only defaultOptimizerConfig ("MATCH (n) DETACH DELETE n".data) =
      (false, forbidMsg ("DELETE".data)) ∧
    is_read_only ⟨100, false⟩ ("CREATE (n)".data) = (true, []) := by
  refine ⟨?_, ?_, ?_, by decide, by decide, by decide⟩
  · intro cfg q h
    simp [is_read_only, h]
  · intro cfg q kw he hm hw
    have hne : (DANGEROUS_KEYWORDS.filter
        (fun k => hasWord k (q.map upperChar))) ≠ [] := by
      intro hnil
      have hmem : kw ∈ (DANGEROUS_KEYWORDS.filter
          (fun k => hasWord k (q.map upperChar))) :=
        List.mem_filter.mpr ⟨hm, hw⟩
      rw [hnil] at hmem
      exact absurd hmem (List.not_mem_nil kw)
    obtain ⟨k, hk⟩ := Option.ne_none_iff_exists'.mp
      (mt List.head?_eq_none_iff.mp hne)
    simp [is_read_only, he, findDangerous_eq_filter_head, hk]
  · intro cfg q kw he hh
    simp [is_read_only, he, findDangerous_eq_filter_head, hh]

/-- Witness for C1 (amended): the rejection clause applied at the
`DETACH DELETE` example, whose first matching keyword is `DELETE`, and the
disabled-mode clause applied at a `CREATE` query. -/
theorem c1_read_only_witness :
    is_read_only defaultOptimizerConfig ("MATCH (n) DETACH DELETE n".data) =
      (false, forbidMsg ("DELETE".data)) ∧
    is_read_only ⟨100, false⟩ ("CREATE (n) SET n.x = 1".data) = (true, []) :=
  ⟨c1_read_only.2.2.1 defaultOptimizerConfig
      ("MATCH (n) DETACH DELETE n".data) ("DELETE".data) rfl (by decide),
   c1_read_only.1 ⟨100, false⟩ ("CREATE (n) SET n.x = 1".data) rfl⟩

/-- Claim C8 counterexample: `sanitize_filename("../../etc/passwd")` does not
raise — the path components are stripped before the forbidden-element check,
so the basename `passwd` is returned. -/
theorem c8_counterexample :
    sanitize_filename ("../../etc/passwd".data) =
      Except.ok ("passwd".data) ∧
    (∀ e, sanitize_filename ("../../etc/passwd".data) ≠ Except.error e) := by
  have h : sanitize_filename ("../../etc/passwd".data) =
      Except.ok ("passwd".data) := by rfl
  refine ⟨h, ?_⟩
  intro e he
  rw [h] at he
  cases he

/-- Claim C8 as amended: an input whose basename — the text after the last
`/` and `\` — contains a forbidden element raises an invalid-input error;
`"../../etc/passwd"` is stripped to the clean basename `passwd` (no error),
and the clean `"report.csv"` is returned unchanged. -/
theorem c8_filename :
    (∀ name f, f ∈ FORBIDDEN_CHARS →
      containsSub f (lastSegment '\\' (lastSegment '/' name)) = true →
      ∃ e, sanitize_filename name = Except.error e) ∧
    sanitize_filename ("../../etc/passwd".data) = Except.ok ("passwd".data) ∧
    sanitize_filename ("report.csv".data) = Except.ok ("report.csv".data) ∧
    (∃ e, sanitize_filename ("a..b".data) = Except.error e) := by
  refine ⟨?_, by rfl, by rfl,
    ⟨("Caractère interdit dans le nom: ..".data), by rfl⟩⟩
  intro name f hf hc
  have hs : (FORBIDDEN_CHARS.find? (fun g => containsSub g
      (lastSegment '\\' (lastSegment '/' name)))).isSome := by
    rw [List.find?_isSome]
    exact ⟨f, hf, hc⟩
  obtain ⟨g, hg⟩ := Option.isSome_iff_exists.mp hs
  refine ⟨("Caractère interdit dans le nom: ".data) ++ g, ?_⟩
  simp only [sanitize_filename]
  rw [hg]

/-- Witness for C8 (amended): the rejection clause applied at `"x~y"`,
whose basename contains the forbidden `~`. -/
theorem c8_filename_witness :
    ∃ e, sanitize_filename ("x~y".data) = Except.error e :=
  c8_filename.1 ("x~y".data) ("~".data) (by decide) (by decide)

/-- Claim C10: whenever syntax validation fails, `validate_query` reports
`is_read_only = false` and an empty warnings list regardless of the query's
content, and a missing-`LIMIT` warning is only ever produced for valid
queries. -/
theorem c10_validate_query :
    (∀ env cypher cro, (env.validate_cypher cypher).1 = false →
      validate_query env cypher cro =
        (false, false, (env.validate_cypher cypher).2, [])) ∧
    (∀ env cypher cro, (validate_query env cypher cro).2.2.2 ≠ [] →
      (env.validate_cypher cypher).1 = true ∧
      (validate_query env cypher cro).1 = true ∧
      has_limit cypher = false) := by
  constructor
  · intro env cypher cro h
    simp [validate_query, h]
  · intro env cypher cro h
    cases hv : (env.validate_cypher cypher).1 with
    | false => simp [validate_query, hv] at h
    | true =>
      refine ⟨rfl, by simp [validate_query, hv], ?_⟩
      cases hl : has_limit cypher with
      | false => rfl
      | true => simp [validate_query, hv, hl] at h

/-- Witness for C10 at a stub database service whose validation always
fails. -/
theorem c10_validate_query_witness :
    validate_query invalidSyntaxEnv ("MATCH (n) RETURN n".data) true =
      (false, false, some ("Invalid syntax".data), []) :=
  c10_validate_query.1 invalidSyntaxEnv ("MATCH (n) RETURN n".data) true rfl

/-- Claim C3: when caching is requested and enabled and the lookup keyed by
the question and context hits, `process_natural_query` returns exactly the
cached tuple and performs no other call — no schema fetch, no generation, no
optimization, no read-only check, no validation, no execution. -/
theorem c3_cache_hit :
    ∀ env wallTime q ctx entry, env.cacheEnabled = true →
      env.cacheGet q ctx = some entry →
      process_natural_query env wallTime q ctx true =
        (Except.ok (entry.cypher, entry.results, entry.execution_time,
          entry.answer), [Effect.cacheLookup]) ∧
      (∀ e, e ∈ (process_natural_query env wallTime q ctx true).2 →
        e = Effect.cacheLookup) := by
  intro env wallTime q ctx entry hen hget
  have hmain : process_natural_query env wallTime q ctx true =
      (Except.ok (entry.cypher, entry.results, entry.execution_time,
        entry.answer), [Effect.cacheLookup]) := by
    simp [process_natural_query, hen, hget]
  refine ⟨hmain, ?_⟩
  rw [hmain]
  intro e he
  simpa using he

/-- Witness for C3 at a stub environment whose cache holds `sampleEntry`. -/
theorem c3_cache_hit_witness :
    process_natural_query cacheHitEnv 7 ("How many people?".data) none true =
      (Except.ok (sampleEntry.cypher, sampleEntry.results,
        sampleEntry.execution_time, sampleEntry.answer),
       [Effect.cacheLookup]) :=
  (c3_cache_hit cacheHitEnv 7 ("How many people?".data) none sampleEntry
    rfl rfl).1

/-- Decimal digits are digit characters. -/
theorem digitChar_isDigit : ∀ m, m < 10 → (digitChar m).isDigit = true := by
  decide

/-- Decimal digits are not whitespace. -/
theorem digitChar_notSpace : ∀ m, m < 10 →
    isSpaceChar (digitChar m) = false := by
  decide

/-- Upper-casing leaves decimal digits unchanged. -/
theorem digitChar_upper : ∀ m, m < 10 →
    upperChar (digitChar m) = digitChar m := by
  decide

/-- A rendered natural number starts with a decimal digit. -/
theorem natCharsAux_head : ∀ fuel n, n < fuel →
    ∃ m cs, m < 10 ∧ natCharsAux fuel n = digitChar m :: cs := by
  intro fuel
  induction fuel with
  | zero => intro n hn; omega
  | succ fuel ih =>
    intro n _
    by_cases h : n < 10
    · exact ⟨n, [], h, by simp [natCharsAux, h]⟩
    · have hd : n / 10 < n := Nat.div_lt_self (by omega) (by omega)
      obtain ⟨m, cs, hm, hcs⟩ := ih (n / 10) (by omega)
      exact ⟨m, cs ++ [digitChar (n % 10)], hm,
        by simp [natCharsAux, h, hcs]⟩

/-- Every character of a rendered natural number is a decimal digit. -/
theorem natCharsAux_mem : ∀ fuel n c, c ∈ natCharsAux fuel n →
    ∃ m, m < 10 ∧ c = digitChar m := by
  intro fuel
  induction fuel with
  | zero => intro n c hc; simp [natCharsAux] at hc
  | succ fuel ih =>
    intro n c hc
    by_cases h : n < 10
    · simp [natCharsAux, h] at hc
      exact ⟨n, h, hc⟩
    · simp [natCharsAux, h] at hc
      rcases hc with hc | hc
      · exact ih (n / 10) c hc
      · exact ⟨n % 10, Nat.mod_lt _ (by omega), hc⟩

/-- A successful decode always hands back the token's own payload. -/
theorem jwt_decode_ok_payload (now : Nat) (tok : JwtToken) (key : List Char)
    (algs : List (List Char)) (p : JwtPayload) :
    jwt_decode now tok key algs = DecodeResult.ok p → p = tok.payload := by
  unfold jwt_decode
  split_ifs <;> intro h
  · simp at h
  · simp at h
  · simp at h
  · injection h with h2
    exact h2.symm

/-- `verify_token` reports an authorization failure whenever the type claim
differs from the expected one, the expiry is in the past, the `iat` claim is
not a numeric string, or the token was signed with another key. -/
theorem verify_unauthorized_cases (st : SecuritySettings) (now : Nat)
    (tok : JwtToken) (tt : List Char)
    (h : tok.payload.typ ≠ tt ∨ tok.payload.exp < now ∨
      pyIntParses tok.payload.iat = false ∨ tok.key ≠ st.secret_key) :
    ∃ m, verify_token st now tok tt = VerifyResult.unauthorized m := by
  unfold verify_token jwt_decode
  split_ifs with h1 h2 h3
  · exact ⟨_, rfl⟩
  · exact ⟨_, rfl⟩
  · exact ⟨_, rfl⟩
  · have hab : (tok.key == st.secret_key &&
        [st.algorithm].contains tok.alg) = true := by
      simpa using h1
    rw [Bool.and_eq_true] at hab
    have hkey : tok.key = st.secret_key := eq_of_beq hab.1
    have hiat : pyIntParses tok.payload.iat = true := by simpa using h2
    have htyp : tok.payload.typ ≠ tt := by
      rcases h with ht | hexp | hmal | hk
      · exact ht
      · exact absurd hexp h3
      · rw [hiat] at hmal; cases hmal
      · exact absurd hkey hk
    have hb : (tok.payload.typ == tt) = false :=
      beq_eq_false_iff_ne.mpr htyp
    exact ⟨("Type de token invalide: attendu ".data) ++ tt, by simp [hb]⟩

/-- `digitChar` never yields a sign character. -/
theorem digitChar_notSign : ∀ m, m < 10 →
    ((digitChar m == '+') || (digitChar m == '-')) = false := by
  decide

/-- The factories' `iat` string — digits followed by the literal `Z` — is
not numeric: Python's `int()` rejects it, as it rejects the real
`isoformat() + "Z"` value. -/
theorem pyIntParses_iatString (now : Nat) :
    pyIntParses (iatString now) = false := by
  obtain ⟨m, cs, hm, hcs⟩ := natCharsAux_head (now + 1) now (by omega)
  have hshape : iatString now = digitChar m :: (cs ++ ['Z']) := by
    rw [iatString, show natChars now = natCharsAux (now + 1) now from rfl,
      hcs]
    rfl
  have hz : (('Z' : Char).isDigit) = false := by decide
  rw [hshape]
  simp [pyIntParses, digitChar_notSign m hm, List.all_append, hz]

/-- A token signed with the configured key and algorithm, carrying a numeric
`iat`, an expiry not in the past and the expected type, verifies to its own
payload. -/
theorem verify_ok_roundtrip (st : SecuritySettings) (now2 : Nat)
    (p : JwtPayload) (tt : List Char) (hiat : pyIntParses p.iat = true)
    (hne : ¬(p.exp < now2)) (htyp : p.typ = tt) :
    verify_token st now2 ⟨p, st.secret_key, st.algorithm⟩ tt =
      VerifyResult.ok p := by
  unfold verify_token jwt_decode
  simp [hiat, hne, htyp]

/-- Claim C5 against the traced code: `verify_token` fails with an
authorization error on a type mismatch, a past expiry, a non-numeric `iat`
claim (the codec's claims validation) and any other decode failure (here: a
foreign signing key); a refresh token checked while expecting an access
token is always rejected; a well-formed signed token with the expected type
verifies to its own payload.  But a token produced by
`create_access_token` never verifies: its `iat` is the non-numeric string
`isoformat() + "Z"`, so verification always reports the invalid-claims
authorization error instead of returning the payload — the code bug the
claim's round-trip sentence runs into. -/
theorem c5_verify_token :
    (∀ st now tok tt, tok.payload.typ ≠ tt →
      ∃ m, verify_token st now tok tt = VerifyResult.unauthorized m) ∧
    (∀ st now tok tt, tok.payload.exp < now →
      ∃ m, verify_token st now tok tt = VerifyResult.unauthorized m) ∧
    (∀ st now tok tt, pyIntParses tok.payload.iat = false →
      ∃ m, verify_token st now tok tt = VerifyResult.unauthorized m) ∧
    (∀ st now tok tt, tok.key ≠ st.secret_key →
      ∃ m, verify_token st now tok tt = VerifyResult.unauthorized m) ∧
    (∀ st now now2 data delta,
      ∃ m, verify_token st now2 (create_refresh_token st now data delta)
        ("access".data) = VerifyResult.unauthorized m) ∧
    (∀ st now now2 data delta,
      verify_token st now2 (create_access_token st now data delta)
        ("access".data) =
        VerifyResult.unauthorized ("Claims du token invalides".data)) ∧
    (∀ st now2 p tt, pyIntParses p.iat = true → ¬(p.exp < now2) →
      p.typ = tt →
      verify_token st now2 ⟨p, st.secret_key, st.algorithm⟩ tt =
        VerifyResult.ok p) := by
  refine ⟨?_, ?_, ?_, ?_, ?_, ?_, verify_ok_roundtrip⟩
  · intro st now tok tt h
    exact verify_unauthorized_cases st now tok tt (Or.inl h)
  · intro st now tok tt h
    exact verify_unauthorized_cases st now tok tt (Or.inr (Or.inl h))
  · intro st now tok tt h
    exact verify_unauthorized_cases st now tok tt (Or.inr (Or.inr (Or.inl h)))
  · intro st now tok tt h
    exact verify_unauthorized_cases st now tok tt (Or.inr (Or.inr (Or.inr h)))
  · intro st now now2 data delta
    refine verify_unauthorized_cases st now2 _ ("access".data) (Or.inl ?_)
    intro hcontra
    have hfalse : ("refresh".data : List Char) = ("access".data) := hcontra
    exact absurd hfalse (by decide)
  · intro st now now2 data delta
    unfold verify_token jwt_decode
    simp [create_access_token, pyIntParses_iatString]

/-- Witness for C5: the factory access token always rejected with the
invalid-claims message, the refresh token rejected while expecting access, a
type-mismatch and an expiry rejection, and a numeric-`iat` token verifying
to its payload, all at concrete settings. -/
theorem c5_verify_token_witness :
    verify_token sampleSecuritySettings 5
      (create_access_token sampleSecuritySettings 0
        [(("sub".data), ("x".data))] (some 10)) ("access".data) =
      VerifyResult.unauthorized ("Claims du token invalides".data) ∧
    (∃ m, verify_token sampleSecuritySettings 0
      (create_refresh_token sampleSecuritySettings 0
        [(("sub".data), ("x".data))] none) ("access".data) =
      VerifyResult.unauthorized m) ∧
    (∃ m, verify_token sampleSecuritySettings 5 sampleNumericToken
      ("refresh".data) = VerifyResult.unauthorized m) ∧
    (∃ m, verify_token sampleSecuritySettings 99999999 sampleNumericToken
      ("access".data) = VerifyResult.unauthorized m) ∧
    (∃ m, verify_token sampleSecuritySettings 5
      (create_access_token sampleSecuritySettings 0
        [(("sub".data), ("x".data))] (some 10)) ("refresh".data) =
      VerifyResult.unauthorized m) ∧
    verify_token sampleSecuritySettings 5 sampleNumericToken
      ("access".data) = VerifyResult.ok sampleNumericToken.payload :=
  ⟨c5_verify_token.2.2.2.2.2.1 sampleSecuritySettings 0 5
      [(("sub".data), ("x".data))] (some 10),
   c5_verify_token.2.2.2.2.1 sampleSecuritySettings 0 0
      [(("sub".data), ("x".data))] none,
   c5_verify_token.1 sampleSecuritySettings 5 sampleNumericToken
      ("refresh".data) (by decide),
   c5_verify_token.2.1 sampleSecuritySettings 99999999 sampleNumericToken
      ("access".data) (by decide),
   c5_verify_token.2.2.1 sampleSecuritySettings 5
      (create_access_token sampleSecuritySettings 0
        [(("sub".data), ("x".data))] (some 10)) ("refresh".data)
      (by decide),
   c5_verify_token.2.2.2.2.2.2 sampleSecuritySettings 5
      sampleNumericToken.payload ("access".data) (by decide) (by decide)
      rfl⟩

/-- Upper-casing leaves a rendered natural number unchanged. -/
theorem map_upper_natChars (n : Nat) :
    (natChars n).map upperChar = natChars n := by
  have h : ∀ c ∈ natChars n, upperChar c = id c := by
    intro c hc
    obtain ⟨m, hm, rfl⟩ := natCharsAux_mem (n + 1) n c hc
    simpa using digitChar_upper m hm
  exact (List.map_congr_left h).trans (List.map_id _)

/-- The appended clause body `LIMIT <digits>` matches the limit regex at its
own start. -/
theorem limitMatchAt_payload (d : Nat) :
    limitMatchAt ('L' :: 'I' :: 'M' :: 'I' :: 'T' :: ' ' :: natChars d) =
      true := by
  obtain ⟨m, cs, hm, hcs⟩ := natCharsAux_head (d + 1) d (by omega)
  have hdig : digitAfterSpaces (natChars d) = true := by
    rw [show natChars d = natCharsAux (d + 1) d from rfl, hcs]
    simp [digitAfterSpaces, digitChar_notSpace m hm, digitChar_isDigit m hm]
  simp [limitMatchAt, startsWithChars, hdig, isSpaceChar]

/-- The scanner finds a limit clause placed after a space anywhere behind an
arbitrary prefix. -/
theorem hasLimitAux_finds (c0 : Char) (rest0 : List Char)
    (hm : limitMatchAt (c0 :: rest0) = true) :
    ∀ s b, hasLimitAux b (s ++ ' ' :: c0 :: rest0) = true := by
  intro s
  induction s with
  | nil =>
    intro b
    simp [hasLimitAux, isWordChar]
    exact Or.inr (Or.inl hm)
  | cons c s ih =>
    intro b
    simp [hasLimitAux, ih]

/-- `_add_limit` always produces a query that `_has_limit` recognizes. -/
theorem has_limit_add_limit (q : List Char) (d : Nat) :
    has_limit (add_limit q d) = true := by
  have hmid : (" LIMIT ".data).map upperChar = (" LIMIT ".data) := by decide
  have hshape : (add_limit q d).map upperChar =
      ((rstripSemis q).map upperChar) ++
        ' ' :: 'L' :: 'I' :: 'M' :: 'I' :: 'T' :: ' ' :: natChars d := by
    simp [add_limit, List.map_append, hmid, map_upper_natChars]
    decide
  rw [has_limit, hshape]
  exact hasLimitAux_finds 'L' ('I' :: 'M' :: 'I' :: 'T' :: ' ' :: natChars d)
    (limitMatchAt_payload d) _ true

/-- Claim C9: `optimize` is idempotent — the clause it appends is itself
matched by the limit-presence check on a second pass, and a query that
already passes the check is returned unchanged. -/
theorem c9_optimize_idempotent :
    ∀ cfg q, optimize cfg (optimize cfg q) = optimize cfg q := by
  intro cfg q
  by_cases h : has_limit q
  · simp [optimize, h]
  · have h2 : has_limit (add_limit q cfg.default_query_limit) = true :=
      has_limit_add_limit q _
    simp [optimize, h, h2]

/-! ### Lemmas on the key order used by `sort_keys=True` -/

/-- `lexLe` is total. -/
theorem lexLe_total : ∀ a b : List Char, lexLe a b = true ∨ lexLe b a = true := by
  intro a
  induction a with
  | nil => intro b; left; rfl
  | cons x as ih =>
    intro b
    cases b with
    | nil => right; rfl
    | cons y bs =>
      rcases lt_trichotomy x y with h | h | h
      · left; simp [lexLe, h]
      · subst h
        rcases ih bs with hh | hh
        · left; simp [lexLe, lt_irrefl, hh]
        · right; simp [lexLe, lt_irrefl, hh]
      · right; simp [lexLe, h]

/-- `lexLe` is antisymmetric. -/
theorem lexLe_antisymm : ∀ a b : List Char,
    lexLe a b = true → lexLe b a = true → a = b := by
  intro a
  induction a with
  | nil =>
    intro b _ hba
    cases b with
    | nil => rfl
    | cons y bs => simp [lexLe] at hba
  | cons x as ih =>
    intro b hab hba
    cases b with
    | nil => simp [lexLe] at hab
    | cons y bs =>
      rcases lt_trichotomy x y with h | h | h
      · simp [lexLe, h, asymm h] at hba
      · subst h
        simp only [lexLe, lt_irrefl, if_false] at hab hba
        rw [ih bs hab hba]
      · simp [lexLe, h, asymm h] at hab

/-- `lexLe` is transitive. -/
theorem lexLe_trans : ∀ a b c : List Char,
    lexLe a b = true → lexLe b c = true → lexLe a c = true := by
  intro a
  induction a with
  | nil => intro b c _ _; rfl
  | cons x as ih =>
    intro b c hab hbc
    cases b with
    | nil => simp [lexLe] at hab
    | cons y bs =>
      cases c with
      | nil => simp [lexLe] at hbc
      | cons z cs =>
        rcases lt_trichotomy x y with h1 | h1 | h1
        · rcases lt_trichotomy y z with h2 | h2 | h2
          · simp [lexLe, lt_trans h1 h2]
          · subst h2; simp [lexLe, h1]
          · simp [lexLe, h2, asymm h2] at hbc
        · subst h1
          rcases lt_trichotomy x z with h2 | h2 | h2
          · simp [lexLe, h2]
          · subst h2
            simp only [lexLe, lt_irrefl, if_false] at hab hbc ⊢
            exact ih bs cs hab hbc
          · simp [lexLe, h2, asymm h2] at hbc
        · simp [lexLe, h1, asymm h1] at hab

/-- `lexLt` is asymmetric. -/
theorem lexLt_asymm (a b : List Char) :
    lexLt a b = true → lexLt b a = true → False := by
  intro h1 h2
  rw [lexLt, Bool.and_eq_true] at h1 h2
  have := lexLe_antisymm a b h1.1 h2.1
  subst this
  simp at h1

/-! ### Sorting by key: permutation and sortedness -/

/-- Inserting puts the element somewhere in the list. -/
theorem insertByKey_perm (p : List Char × JVal) :
    ∀ l, List.Perm (insertByKey p l) (p :: l) := by
  intro l
  induction l with
  | nil => simp [insertByKey]
  | cons q rest ih =>
    by_cases h : lexLe p.1 q.1 = true
    · simp [insertByKey, h]
    · simp only [insertByKey, h, if_false]
      exact (ih.cons q).trans (List.Perm.swap p q rest)

/-- `sortByKey` permutes its input. -/
theorem sortByKey_perm : ∀ l, List.Perm (sortByKey l) l := by
  intro l
  induction l with
  | nil => simp [sortByKey]
  | cons p rest ih =>
    exact (insertByKey_perm p (sortByKey rest)).trans (ih.cons p)

/-- Inserting into a key-sorted list keeps it key-sorted. -/
theorem insertByKey_pairwise (p : List Char × JVal) :
    ∀ l, l.Pairwise (fun x y => lexLe x.1 y.1 = true) →
      (insertByKey p l).Pairwise (fun x y => lexLe x.1 y.1 = true) := by
  intro l
  induction l with
  | nil => intro _; simp [insertByKey]
  | cons q rest ih =>
    intro h
    rcases List.pairwise_cons.mp h with ⟨hq, hrest⟩
    by_cases hle : lexLe p.1 q.1 = true
    · simp only [insertByKey, hle, if_true]
      refine List.pairwise_cons.mpr ⟨?_, h⟩
      intro x hx
      rcases List.mem_cons.mp hx with rfl | hx2
      · exact hle
      · exact lexLe_trans _ _ _ hle (hq x hx2)
    · simp only [insertByKey, hle, if_false]
      refine List.pairwise_cons.mpr ⟨?_, ih hrest⟩
      intro x hx
      have hx2 : x ∈ p :: rest :=
        (insertByKey_perm p rest).mem_iff.mp hx
      rcases List.mem_cons.mp hx2 with rfl | hx3
      · rcases lexLe_total x.1 q.1 with hh | hh
        · exact absurd hh hle
        · exact hh
      · exact hq x hx3

/-- `sortByKey` produces a key-sorted list. -/
theorem sortByKey_pairwise : ∀ l,
    (sortByKey l).Pairwise (fun x y => lexLe x.1 y.1 = true) := by
  intro l
  induction l with
  | nil => simp [sortByKey]
  | cons p rest ih => exact insertByKey_pairwise p _ ih

/-- Two permuted strictly key-sorted lists are equal. -/
theorem perm_strictSorted_eq : ∀ l1 l2 : List (List Char × JVal),
    List.Perm l1 l2 →
    l1.Pairwise (fun x y => lexLt x.1 y.1 = true) →
    l2.Pairwise (fun x y => lexLt x.1 y.1 = true) → l1 = l2 := by
  intro l1
  induction l1 with
  | nil =>
    intro l2 hp _ _
    exact (List.perm_nil.mp hp.symm).symm
  | cons p t1 ih =>
    intro l2 hp h1 h2
    cases l2 with
    | nil => exact absurd (List.perm_nil.mp hp) (by simp)
    | cons q t2 =>
      rcases List.pairwise_cons.mp h1 with ⟨hp1, ht1⟩
      rcases List.pairwise_cons.mp h2 with ⟨hq2, ht2⟩
      have hpq : p = q := by
        by_contra hne
        have hpmem : p ∈ q :: t2 := hp.mem_iff.mp (List.mem_cons_self p t1)
        have hqmem : q ∈ p :: t1 := hp.symm.mem_iff.mp (List.mem_cons_self q t2)
        have hpt2 : p ∈ t2 := by
          rcases List.mem_cons.mp hpmem with rfl | h
          · exact absurd rfl hne
          · exact h
        have hqt1 : q ∈ t1 := by
          rcases List.mem_cons.mp hqmem with rfl | h
          · exact absurd rfl hne
          · exact h
        exact lexLt_asymm p.1 q.1 (hp1 q hqt1) (hq2 p hpt2)
      subst hpq
      rw [ih t2 hp.cons_inv ht1 ht2]

/-- Distinct keys turn a key-sorted list into a strictly key-sorted one. -/
theorem pairwise_lt_of_le_nodup (l : List (List Char × JVal))
    (hle : l.Pairwise (fun x y => lexLe x.1 y.1 = true))
    (hnd : KeysNodup l) :
    l.Pairwise (fun x y => lexLt x.1 y.1 = true) := by
  have hne : l.Pairwise (fun x y => x.1 ≠ y.1) :=
    List.pairwise_map.mp hnd
  refine (List.pairwise_and_iff.mpr ⟨hle, hne⟩).imp ?_
  intro a b hab
  rw [lexLt, Bool.and_eq_true]
  exact ⟨hab.1, by simpa using hab.2⟩

/-- Key-distinct permuted dictionaries sort to the same list — the core of
cache-key order-insensitivity. -/
theorem sortByKey_eq_of_perm (l1 l2 : List (List Char × JVal))
    (hnd : KeysNodup l1) (hp : List.Perm l1 l2) :
    sortByKey l1 = sortByKey l2 := by
  have hnd2 : KeysNodup l2 := (List.Perm.nodup_iff (hp.map Prod.fst)).mp hnd
  have hs1 : KeysNodup (sortByKey l1) :=
    (List.Perm.nodup_iff ((sortByKey_perm l1).map Prod.fst)).mpr hnd
  have hs2 : KeysNodup (sortByKey l2) :=
    (List.Perm.nodup_iff ((sortByKey_perm l2).map Prod.fst)).mpr hnd2
  refine perm_strictSorted_eq _ _ ?_
    (pairwise_lt_of_le_nodup _ (sortByKey_pairwise l1) hs1)
    (pairwise_lt_of_le_nodup _ (sortByKey_pairwise l2) hs2)
  exact ((sortByKey_perm l1).trans hp).trans (sortByKey_perm l2).symm

/-! ### Parsing a rendered object back: the serializer is injective -/

/-- A list starts with itself. -/
theorem startsWith_self_append : ∀ p s : List Char,
    startsWithChars p (p ++ s) = true := by
  intro p
  induction p with
  | nil => intro s; rfl
  | cons c cs ih => intro s; simp [startsWithChars, ih]

/-- Decoding undoes escaping, up to the closing quote. -/
theorem unescape_roundtrip : ∀ s r : List Char,
    unescapeStrAux (escapeStr s ++ '\"' :: r) = some (s, r) := by
  intro s
  induction s with
  | nil =>
    intro r
    rw [show escapeStr [] ++ '\"' :: r = '\"' :: r from rfl,
      unescapeStrAux.eq_def]
    simp
  | cons c cs ih =>
    intro r
    by_cases h1 : (c == '\"' || c == '\\') = true
    · rw [show escapeStr (c :: cs) = escapeChar c ++ escapeStr cs from rfl]
      rw [show escapeChar c = ['\\', c] by simp [escapeChar, h1]]
      rw [List.append_assoc,
        show (['\\', c] : List Char) ++ (escapeStr cs ++ '\"' :: r) =
          '\\' :: c :: (escapeStr cs ++ '\"' :: r) from rfl]
      rw [unescapeStrAux.eq_def]
      simp [ih]
    · have hq : (c == '\"') = false := by
        cases hh : (c == '\"') with
        | false => rfl
        | true => rw [hh] at h1; simp at h1
      have hb : (c == '\\') = false := by
        cases hh : (c == '\\') with
        | false => rfl
        | true => rw [hh] at h1; simp at h1
      rw [show escapeStr (c :: cs) = escapeChar c ++ escapeStr cs from rfl]
      rw [show escapeChar c = [c] by simp [escapeChar, hq, hb]]
      rw [List.append_assoc, List.singleton_append, unescapeStrAux.eq_def]
      simp [hq, hb, ih]

/-- Parsing undoes value rendering. -/
theorem parseJVal_roundtrip : ∀ (v : JVal) (r : List Char),
    parseJVal (renderJVal v ++ r) = some (v, r) := by
  intro v r
  cases v with
  | null =>
    rw [show renderJVal JVal.null ++ r = 'n' :: 'u' :: 'l' :: 'l' :: r
      from rfl, parseJVal.eq_def]
    simp [startsWithChars]
  | str s =>
    rw [show renderJVal (JVal.str s) ++ r =
        '\"' :: (escapeStr s ++ '\"' :: r) by simp [renderJVal, renderStr],
      parseJVal.eq_def]
    simp [startsWithChars, unescape_roundtrip]

/-- Parsing undoes member rendering. -/
theorem parsePair_roundtrip : ∀ (p : List Char × JVal) (r : List Char),
    parsePair (renderPair p ++ r) = some (p, r) := by
  intro p r
  obtain ⟨k, v⟩ := p
  rw [show renderPair (k, v) ++ r =
      '\"' :: (escapeStr k ++ '\"' :: (':' :: ' ' :: (renderJVal v ++ r)))
    by simp [renderPair, renderStr], parsePair.eq_def]
  simp [unescape_roundtrip, parseJVal_roundtrip]

/-- A rendered member list is at least as long as the list itself. -/
theorem renderPairs_length_ge : ∀ l : List (List Char × JVal),
    l.length ≤ (renderPairs l).length := by
  intro l
  induction l with
  | nil => simp [renderPairs]
  | cons p t ih =>
    have h1 : 1 ≤ (renderPair p).length := by
      simp [renderPair, renderStr]
    cases t with
    | nil => simpa [renderPairs] using h1
    | cons q rest =>
      rw [show renderPairs (p :: q :: rest) =
        renderPair p ++ [',', ' '] ++ renderPairs (q :: rest) from rfl]
      simp only [List.length_append, List.length_cons]
      simp only [List.length_cons] at ih
      omega

/-- Parsing undoes member-list rendering, given enough fuel. -/
theorem parsePairsAux_roundtrip : ∀ (l : List (List Char × JVal)) (fuel : Nat),
    l ≠ [] → l.length ≤ fuel →
    parsePairsAux fuel (renderPairs l ++ ['\x7d']) = some (l, ['\x7d']) := by
  intro l
  induction l with
  | nil => intro fuel h _; exact absurd rfl h
  | cons p t ih =>
    intro fuel _ hfuel
    cases fuel with
    | zero => simp at hfuel
    | succ f =>
      cases t with
      | nil =>
        rw [show renderPairs [p] ++ ['\x7d'] = renderPair p ++ ['\x7d']
          from rfl, parsePairsAux.eq_def]
        simp [parsePair_roundtrip p (['\x7d'])]
      | cons q rest =>
        rw [show renderPairs (p :: q :: rest) ++ ['\x7d'] =
            renderPair p ++ (',' :: ' ' ::
              (renderPairs (q :: rest) ++ ['\x7d'])) by simp [renderPairs],
          parsePairsAux.eq_def]
        have hrec := ih f (by simp) (by simp at hfuel ⊢; omega)
        simp [parsePair_roundtrip, hrec]

/-- A rendered nonempty member list starts with a quote. -/
theorem renderPairs_cons_head (p : List Char × JVal)
    (t : List (List Char × JVal)) :
    ∃ u, renderPairs (p :: t) = '\"' :: u := by
  cases t with
  | nil =>
    refine ⟨escapeStr p.1 ++ '\"' :: ':' :: ' ' :: renderJVal p.2, ?_⟩
    simp [renderPairs, renderPair, renderStr]
  | cons q rest =>
    refine ⟨escapeStr p.1 ++ '\"' :: ':' :: ' ' ::
      (renderJVal p.2 ++ ',' :: ' ' :: renderPairs (q :: rest)), ?_⟩
    simp [renderPairs, renderPair, renderStr]

/-- Parsing undoes `json.dumps(·, sort_keys=True)`. -/
theorem jsonParse_roundtrip (ps : List (List Char × JVal)) :
    jsonParse (jsonDumpsSorted ps) = some (sortByKey ps) := by
  rcases hs : sortByKey ps with _ | ⟨p, t⟩
  · rw [show jsonDumpsSorted ps = '\x7b' :: renderPairs (sortByKey ps) ++
      ['\x7d'] from rfl, hs, jsonParse.eq_def]
    simp [renderPairs]
  · obtain ⟨u, hu⟩ := renderPairs_cons_head p t
    have hne : ((renderPairs (p :: t) ++ ['\x7d']) == (['\x7d'])) = false := by
      rw [hu]
      simp
    have hlen : (p :: t).length ≤
        (renderPairs (p :: t) ++ ['\x7d']).length := by
      have := renderPairs_length_ge (p :: t)
      simp only [List.length_append, List.length_cons]
      simp only [List.length_cons] at this
      omega
    have hparse := parsePairsAux_roundtrip (p :: t)
      ((renderPairs (p :: t) ++ ['\x7d']).length) (by simp) hlen
    rw [show jsonDumpsSorted ps = '\x7b' :: (renderPairs (sortByKey ps) ++
      ['\x7d']) from rfl, hs, jsonParse.eq_def]
    simp only [List.length_append, List.length_cons, List.length_nil]
      at hparse
    simp [hne, hparse]

/-- The sorted serialization is injective up to sorting. -/
theorem jsonDumpsSorted_inj (ps qs : List (List Char × JVal))
    (h : jsonDumpsSorted ps = jsonDumpsSorted qs) :
    sortByKey ps = sortByKey qs := by
  have h1 := jsonParse_roundtrip ps
  have h2 := jsonParse_roundtrip qs
  rw [h] at h1
  exact Option.some.inj (h1.symm.trans h2)

/-- Membership in a dictionary with one value replaced. -/
theorem setValue_mem (k : List Char) (w : JVal) :
    ∀ l : List (List Char × JVal), KeysNodup l →
      ∀ x, x ∈ setValue k w l → x = (k, w) ∨ (x ∈ l ∧ x.1 ≠ k) := by
  intro l
  induction l with
  | nil => intro _ x hx; simp [setValue] at hx
  | cons p rest ih =>
    intro hnd x hx
    have hnd2 : p.1 ∉ rest.map Prod.fst ∧ KeysNodup rest := by
      rw [KeysNodup, List.map_cons, List.nodup_cons] at hnd
      exact hnd
    by_cases hpk : (p.1 == k) = true
    · simp only [setValue, hpk, if_true] at hx
      rcases List.mem_cons.mp hx with rfl | hx2
      · exact Or.inl rfl
      · right
        refine ⟨List.mem_cons_of_mem p hx2, ?_⟩
        intro hxk
        have hmap : x.1 ∈ rest.map Prod.fst :=
          List.mem_map_of_mem Prod.fst hx2
        rw [hxk, ← eq_of_beq hpk] at hmap
        exact hnd2.1 hmap
    · simp only [setValue, hpk, if_false] at hx
      rcases List.mem_cons.mp hx with rfl | hx2
      · right
        refine ⟨List.mem_cons_self _ _, ?_⟩
        intro hk
        rw [hk] at hpk
        simp at hpk
      · rcases ih hnd2.2 x hx2 with h | h
        · exact Or.inl h
        · exact Or.inr ⟨List.mem_cons_of_mem p h.1, h.2⟩

/-- Claim C4: the cache key is the fixed prefix `query:` followed by the
digest of the query text joined with the sorted-key serialization of the
parameters; the key is invariant under reordering a key-distinct parameter
dictionary, and — the digest being collision-free on these inputs — changing
the value stored at any key changes the key. -/
theorem c4_generate_key :
    (∀ hashHex q ps, generate_key hashHex q ps =
      ("query:".data) ++ hashHex (q ++ ':' :: jsonDumpsSorted ps)) ∧
    (∀ hashHex q ps qs, KeysNodup ps → List.Perm ps qs →
      generate_key hashHex q ps = generate_key hashHex q qs) ∧
    (∀ hashHex q ps k v w, Function.Injective hashHex → KeysNodup ps →
      (k, v) ∈ ps → v ≠ w →
      generate_key hashHex q ps ≠
        generate_key hashHex q (setValue k w ps)) := by
  refine ⟨fun _ _ _ => rfl, ?_, ?_⟩
  · intro hashHex q ps qs hnd hp
    have hsort : sortByKey ps = sortByKey qs := sortByKey_eq_of_perm ps qs hnd hp
    simp [generate_key, serializeData, jsonDumpsSorted, hsort]
  · intro hashHex q ps k v w hinj hnd hmem hne heq
    simp only [generate_key] at heq
    have h1 : hashHex (serializeData q ps) =
        hashHex (serializeData q (setValue k w ps)) :=
      List.append_cancel_left heq
    have h2 : serializeData q ps = serializeData q (setValue k w ps) :=
      hinj h1
    simp only [serializeData] at h2
    have h2b : (':' :: jsonDumpsSorted ps : List Char) =
        ':' :: jsonDumpsSorted (setValue k w ps) :=
      List.append_cancel_left h2
    have h3 : jsonDumpsSorted ps = jsonDumpsSorted (setValue k w ps) := by
      injection h2b
    have h4 : sortByKey ps = sortByKey (setValue k w ps) :=
      jsonDumpsSorted_inj _ _ h3
    have hperm : List.Perm ps (setValue k w ps) := by
      have ha := (sortByKey_perm ps).symm
      rw [h4] at ha
      exact ha.trans (sortByKey_perm _)
    have hmem2 : (k, v) ∈ setValue k w ps := hperm.mem_iff.mp hmem
    rcases setValue_mem k w ps hnd (k, v) hmem2 with h | h
    · injection h with hk hv
      exact hne hv
    · exact h.2 rfl

/-- Witness for C4: with the identity function standing in for the digest, a
two-entry dictionary keyed in either insertion order yields the same key, and
replacing one value changes the key. -/
theorem c4_generate_key_witness :
    generate_key (fun s => s) ("q".data)
        [(("b".data), JVal.str ("2".data)), (("a".data), JVal.null)] =
      generate_key (fun s => s) ("q".data)
        [(("a".data), JVal.null), (("b".data), JVal.str ("2".data))] ∧
    generate_key (fun s => s) ("q".data)
        [(("a".data), JVal.null), (("b".data), JVal.str ("2".data))] ≠
      generate_key (fun s => s) ("q".data)
        (setValue ("b".data) JVal.null
          [(("a".data), JVal.null), (("b".data), JVal.str ("2".data))]) :=
  ⟨c4_generate_key.2.1 (fun s => s) ("q".data)
      [(("b".data), JVal.str ("2".data)), (("a".data), JVal.null)]
      [(("a".data), JVal.null), (("b".data), JVal.str ("2".data))]
      (by unfold KeysNodup; decide) (by decide),
   c4_generate_key.2.2 (fun s => s) ("q".data)
      [(("a".data), JVal.null), (("b".data), JVal.str ("2".data))]
      ("b".data) (JVal.str ("2".data)) JVal.null
      (fun _ _ hab => hab) (by unfold KeysNodup; decide) (by decide)
      (by decide)⟩

end GraphQuerying
